import Mathlib

/-!
Verification of the apoptosis scripted-layer runtime specification against a
shallow embedding of the source.

Each section embeds the data model and operations of one source module:

* `Apoptosis.Lua`      — `src/service/lua.rs` (the VM host: broken-VM protocol,
  interrupt predicate, scheduler resume hook, close semantics).
* `Apoptosis.Session`  — `src/service/session.rs` (session sweep/lookup, permits).
* `Apoptosis.Entity`   — `src/entity/manager.rs` (vote fetch and vote giving).
* `Apoptosis.Datamgmt` — `src/service/luacore/datamgmt.rs` (AES blob layout, tar
  archive map layer).
* `Apoptosis.Discord`  — `src/service/discord/mod.rs` and
  `src/service/discord/serenity_backports.rs` (permission and hierarchy pre-checks).

Machine integers are modelled as `Nat`/`Int` (no overflow is reachable in the
claims considered), wall-clock instants as `Nat`, database timestamps as `Int`,
and byte strings as `List Nat`. Fallible operations return `Except`/`Option`.
External crates (the Luau runtime, AES-GCM/Argon2, the tar container format,
serenity's guild hierarchy helper) are not part of the source tree; where a
claim depends on them they are abstracted as explicit primitive parameters with
their contracts as hypotheses, or modelled from the spec (each such definition
says so in its doc comment).
-/

namespace Apoptosis

namespace Lua

/-- Result of the interrupt predicate installed by `Vm::new`
(`Ok(LuaVmState::Yield)`, `Ok(LuaVmState::Continue)` or `Err(RuntimeError _)`). -/
inductive InterruptResult where
  | yield
  | cont
  | runtimeError (msg : String)
deriving DecidableEq, Repr

/-- The interrupt predicate from `Vm::new` (`lua.set_interrupt`): if the broken
flag is set, yield immediately; else if an execution stop instant is set and now
is strictly past it, fail with the time-limit error; else continue. -/
def interruptCheck (broken : Bool) (executionStopTime : Option Nat) (now : Nat) :
    InterruptResult :=
  if broken then .yield
  else
    match executionStopTime with
    | some limit =>
        if now > limit then .runtimeError "Script execution time limit exceeded"
        else .cont
    | none => .cont

/-- `SchedulerHook::on_resume`: if a stop instant is set and it is earlier than
`now + give_time`, extend it to `now + give_time`; a `none` stop instant stays
`none`. Returns the new execution stop instant. -/
def onResume (giveTime : Nat) (executionStopTime : Option Nat) (now : Nat) :
    Option Nat :=
  match executionStopTime with
  | some currStop =>
      if currStop < now + giveTime then some (now + giveTime) else some currStop
  | none => none

/-- Errors of the Lua runtime boundary that the VM host distinguishes
(`LuaError::RuntimeError`, `LuaError::MemoryError`, and everything else). -/
inductive LuaErr where
  | runtime (msg : String)
  | memory (msg : String)
  | external (msg : String)
deriving DecidableEq, Repr

/-- Observable state of a `Vm` (`src/service/lua.rs`): whether the underlying
Lua state is still present (`lua: Rc<RefCell<Option<Lua>>>`), the broken flag,
whether an `on_broken` callback is registered, how many times it has been
invoked, and the timing cells. -/
structure VmState where
  luaPresent : Bool
  broken : Bool
  onBrokenSet : Bool
  onBrokenCalls : Nat
  lastExecutionTime : Option Nat
  timeLimit : Option Nat
  executionStopTime : Option Nat
deriving DecidableEq, Repr

/-- `Vm::update_last_execution_time`: records the instant and re-derives the
execution stop instant as `time + time_limit` when a time limit is set. -/
def update_last_execution_time (s : VmState) (time : Nat) : VmState :=
  { s with
    lastExecutionTime := some time
    executionStopTime := s.timeLimit.map (fun limit => time + limit) }

/-- `Vm::close`: sets the broken flag; if the Lua state is already gone, returns
early; otherwise drops the Lua state and sets the broken flag again. Never
fails (every path in the source returns `Ok`). -/
def close (s : VmState) : VmState :=
  let s1 : VmState := { s with broken := true }
  if s1.luaPresent then { s1 with luaPresent := false, broken := true } else s1

/-- `Vm::mark_broken`: closes the VM first, then — when the `broken` argument is
true and an `on_broken` callback is registered — invokes the callback
(unconditionally on every call; the source has no call-once guard). -/
def mark_broken (s : VmState) (broken : Bool) : VmState :=
  let s1 := close s
  if broken && s1.onBrokenSet then
    { s1 with onBrokenCalls := s1.onBrokenCalls + 1 }
  else s1

/-- `Vm::is_broken`. -/
def is_broken (s : VmState) : Bool := s.broken

/-- `Vm::is_closed`. -/
def is_closed (s : VmState) : Bool := !s.luaPresent

/-- `Vm::handle_error`: passes results through, but a `MemoryError` first marks
the VM broken (invoking the callback) before the error is propagated. -/
def handle_error {α : Type} (s : VmState) (resp : Except LuaErr α) :
    VmState × Except LuaErr α :=
  match resp with
  | .ok v => (s, .ok v)
  | .error e =>
      match e with
      | .memory m => (mark_broken s true, .error (.memory m))
      | e => (s, .error e)

/-- `Vm::memory_usage`: `0` if the Lua state is gone, else the runtime's usage
(abstracted as the parameter `used`). -/
def memory_usage (s : VmState) (used : Nat) : Nat :=
  if s.luaPresent then used else 0

/-- `Vm::with_lua`: fails with the stable string when the Lua state is gone,
else runs the closure (its result abstracted as `f`) through `handle_error`. -/
def with_lua {α : Type} (s : VmState) (f : Except LuaErr α) :
    VmState × Except LuaErr α :=
  if s.luaPresent then handle_error s f
  else (s, .error (.runtime "Lua VM is not valid"))

/-- `Vm::from_value`: same guard as `with_lua` around the deserialization
(abstracted as `conv`). -/
def from_value {α : Type} (s : VmState) (conv : Except LuaErr α) :
    VmState × Except LuaErr α :=
  if s.luaPresent then handle_error s conv
  else (s, .error (.runtime "Lua VM is not valid"))

/-- `Vm::eval_chunk`: updates the last execution time, then fails with the
stable string when the Lua state is gone, else compiles (abstracted as
`compiled`) through `handle_error`. -/
def eval_chunk {α : Type} (s : VmState) (now : Nat) (compiled : Except LuaErr α) :
    VmState × Except LuaErr α :=
  let s1 := update_last_execution_time s now
  if s1.luaPresent then handle_error s1 compiled
  else (s1, .error (.runtime "Lua VM is not valid"))

/-- `Vm::eval_script`: updates the last execution time and invokes the cached
proxy require function on the underlying Lua state (its result on a live VM is
abstracted as `res`). The invocation itself crosses into the external Luau
runtime; modelled from the spec: the runtime is missing from the source tree
and per the spec a broken or closed VM must refuse every further invocation
with the VM's stable terminal error string. -/
def eval_script {α : Type} (s : VmState) (now : Nat) (res : Except LuaErr α) :
    VmState × Except LuaErr α :=
  let s1 := update_last_execution_time s now
  if s1.luaPresent then handle_error s1 res
  else (s1, .error (.runtime "Lua VM is not valid"))

/-- `Vm::call_in_scheduler`: updates the last execution time, checks the Lua
state, creates the thread and converts the arguments (abstracted), updates the
time again, awaits the scheduler outcome (abstracted), re-checks the Lua state,
and converts the result. Each fallible step goes through `handle_error` exactly
as in the source; a `none` scheduler outcome converts an empty tuple directly. -/
def call_in_scheduler {α : Type} (s : VmState) (now now2 : Nat)
    (createThread argsConv : Except LuaErr Unit)
    (sched : Except LuaErr (Option (Except LuaErr α)))
    (convertEmpty : Except LuaErr α) (convert : Except LuaErr α) :
    VmState × Except LuaErr α :=
  let s1 := update_last_execution_time s now
  if s1.luaPresent then
    match handle_error s1 createThread with
    | (s2, .error e) => (s2, .error e)
    | (s2, .ok _) =>
      match handle_error s2 argsConv with
      | (s3, .error e) => (s3, .error e)
      | (s3, .ok _) =>
        let s4 := update_last_execution_time s3 now2
        match handle_error s4 sched with
        | (s5, .error e) => (s5, .error e)
        | (s5, .ok res) =>
          if s5.luaPresent then
            match res with
            | none => (s5, convertEmpty)
            | some r =>
              match handle_error s5 r with
              | (s6, .error e) => (s6, .error e)
              | (s6, .ok _) => handle_error s6 convert
          else (s5, .error (.runtime "Lua VM is not valid"))
  else (s1, .error (.runtime "Lua VM is not valid"))

/-- A concrete freshly constructed VM with a registered `on_broken` callback
that has never fired (used for counterexamples and witnesses). -/
def vm0 : VmState :=
  { luaPresent := true, broken := false, onBrokenSet := true, onBrokenCalls := 0,
    lastExecutionTime := none, timeLimit := none, executionStopTime := none }

end Lua

namespace Session

/-- A row of the `api_sessions` table as selected by `SessionManager`
(`id, name, created_at, type AS session_type, target_type, target_id, expiry`,
plus the `token` column used in lookups). Timestamps are `Int`. -/
structure SessionRow where
  id : Nat
  name : Option String
  createdAt : Int
  sessionType : String
  targetType : String
  targetId : String
  token : String
  expiry : Int
deriving DecidableEq, Repr

/-- The expired-row sweep `DELETE FROM api_sessions WHERE expiry < NOW()`:
rows whose expiry is before now are removed, all others kept. -/
def sweepExpired (db : List SessionRow) (now : Int) : List SessionRow :=
  db.filter (fun r => !decide (r.expiry < now))

/-- `SessionManager::get_session_by_token`: sweeps expired rows, then fetches
the first row matching `token = $1 AND expiry >= NOW()`. Returns the table
after the sweep together with the optional row. -/
def get_session_by_token (db : List SessionRow) (now : Int) (token : String) :
    List SessionRow × Option SessionRow :=
  let db1 := sweepExpired db now
  (db1, db1.find? (fun r => r.token == token && decide (now ≤ r.expiry)))

/-- `EntityFlags::BANNED = 1 << 6` (`src/entity/mod.rs`). -/
def BANNED : Nat := 1 <<< 6

/-- `bitflags` `contains`: all bits of `flag` are set in `flags`. -/
def flagsContains (flags flag : Nat) : Bool := flags &&& flag == flag

/-- An entity manager as seen by `get_permit_for`: its entity's stable
`target_type` tag and its `flags(id)` query (which may fail). -/
structure ManagerModel where
  targetType : String
  flagsOf : String → Except String Nat

/-- `SessionPermit` (`src/service/session.rs`); the `Success` variant's manager
is represented by its entity's `target_type` tag. -/
inductive SessionPermit where
  | success (session : SessionRow) (flags : Nat) (managerType : String)
  | apiBanned (session : SessionRow)
  | invalidToken
  | entityNotSupported
deriving DecidableEq, Repr

/-- The environment `get_permit_for` runs against: the sessions table, the
current time and the registry lookup `SharedLayerDb::entity_manager_for`. -/
structure Env where
  db : List SessionRow
  now : Int
  managerFor : String → Option ManagerModel

/-- `SessionManager::get_permit_for`: look up the session by token (no session
means `InvalidToken`), resolve the entity manager for its `target_type` (none
means `EntityNotSupported`), query the entity's flags, and return `ApiBanned`
when the `BANNED` bit is set, else `Success`. -/
def get_permit_for (env : Env) (token : String) : Except String SessionPermit :=
  match (get_session_by_token env.db env.now token).2 with
  | none => .ok .invalidToken
  | some auth =>
    match env.managerFor auth.targetType with
    | none => .ok .entityNotSupported
    | some manager =>
      match manager.flagsOf auth.targetId with
      | .error e => .error e
      | .ok flags =>
        if flagsContains flags BANNED then .ok (.apiBanned auth)
        else .ok (.success auth flags manager.targetType)

/-- A live session row (expiry 10) with token "tok1". -/
def sessRow1 : SessionRow :=
  { id := 1, name := none, createdAt := 0, sessionType := "login",
    targetType := "dummy", targetId := "x", token := "tok1", expiry := 10 }

/-- An expired session row (expiry 1) with token "tok2". -/
def sessRow2 : SessionRow :=
  { id := 2, name := none, createdAt := 0, sessionType := "login",
    targetType := "dummy", targetId := "x", token := "tok2", expiry := 1 }

/-- A live session row whose target entity is banned. -/
def sessRowB : SessionRow :=
  { id := 3, name := none, createdAt := 0, sessionType := "api",
    targetType := "dummy", targetId := "banned", token := "tokB", expiry := 10 }

/-- A live session row whose target type has no registered manager. -/
def sessRowU : SessionRow :=
  { id := 4, name := none, createdAt := 0, sessionType := "api",
    targetType := "does_not_exist", targetId := "x", token := "tokU", expiry := 10 }

/-- A concrete manager for target type "dummy" whose entity reports the
`BANNED` bit exactly for id "banned". -/
def dummyManager : ManagerModel :=
  { targetType := "dummy",
    flagsOf := fun id => if id == "banned" then .ok (1 <<< 6) else .ok 0 }

/-- A concrete environment exercising all four permit branches. -/
def env0 : Env :=
  { db := [sessRow1, sessRow2, sessRowB, sessRowU], now := 5,
    managerFor := fun tt => if tt == "dummy" then some dummyManager else none }

end Session

namespace Entity

/-- A row of the `entity_votes` table (`src/entity/manager.rs` diesel table;
the `credit_redeem` column is opaque to the vote engine and omitted). -/
structure VoteRow where
  itag : Nat
  targetId : String
  targetType : String
  author : String
  upvote : Bool
  void : Bool
  voidReason : Option String
  createdAt : Int
  voteNum : Int
  voidedAt : Option Int
  immutable : Bool
deriving DecidableEq, Repr

/-- The read ordering actually issued by `fetch_votes`:
`ORDER BY created_at DESC` — row `a` precedes row `b` when
`b.created_at <= a.created_at`. -/
def voteGE (a b : VoteRow) : Prop := b.createdAt ≤ a.createdAt

instance : DecidableRel voteGE :=
  fun a b => inferInstanceAs (Decidable (b.createdAt ≤ a.createdAt))

instance : IsTotal VoteRow voteGE := ⟨fun a b => Int.le_total b.createdAt a.createdAt⟩

instance : IsTrans VoteRow voteGE := ⟨fun _ _ _ hab hbc => le_trans hbc hab⟩

/-- The WHERE clause of `fetch_votes`: `author = user AND target_id = id AND
target_type = tt`, plus `void = false` when `only_valid` is set. -/
def baseFilter (db : List VoteRow) (tt user id : String) (onlyValid : Bool) :
    List VoteRow :=
  if onlyValid then
    (db.filter
      (fun r => r.author == user && r.targetId == id && r.targetType == tt)).filter
      (fun r => r.void == false)
  else
    db.filter (fun r => r.author == user && r.targetId == id && r.targetType == tt)

/-- `EntityManager::fetch_votes`: filter, `ORDER BY created_at DESC` (modelled
as a stable sort of the stored order — the query issues no tie-break column),
then apply `LIMIT limit OFFSET offset` when given. -/
def fetch_votes (db : List VoteRow) (tt user id : String) (onlyValid : Bool)
    (limitOffset : Option (Nat × Nat)) : List VoteRow :=
  let sorted := List.insertionSort voteGE (baseFilter db tt user id onlyValid)
  match limitOffset with
  | some (limit, offset) => (sorted.drop offset).take limit
  | none => sorted

/-- A row inserted by `give_votes`:
`INSERT INTO entity_votes (author, target_id, target_type, upvote, vote_num)`;
the remaining columns take their schema defaults (fresh `itag`, `void = false`,
`created_at = now()`, `immutable = false`, no void metadata). -/
def newVoteRow (itag : Nat) (user id tt : String) (upvote : Bool) (now : Int)
    (i : Nat) : VoteRow :=
  { itag := itag, targetId := id, targetType := tt, author := user,
    upvote := upvote, void := false, voidReason := none, createdAt := now,
    voteNum := Int.ofNat i, voidedAt := none, immutable := false }

/-- The rows inserted by the `for i in 0..vi.per_user` loop of `give_votes`. -/
def newVoteRows (tt : String) (perUser : Nat) (id user : String) (upvote : Bool)
    (now : Int) (freshItag : Nat → Nat) : List VoteRow :=
  (List.range perUser).map (fun i => newVoteRow (freshItag i) user id tt upvote now i)

/-- State of the vote store: the `entity_votes` table (in storage order) and
the `entity_approx_votes` table as an association list keyed by
`(target_id, target_type)`. -/
structure VotesDb where
  votes : List VoteRow
  approx : List ((String × String) × Int)
deriving DecidableEq, Repr

/-- The `ON CONFLICT (target_id, target_type) DO UPDATE SET approximate_votes =
entity_approx_votes.approximate_votes + EXCLUDED.approximate_votes` upsert:
add `delta` to an existing row's value, or insert a new row holding `delta`. -/
def upsertApprox : List ((String × String) × Int) → (String × String) → Int →
    List ((String × String) × Int)
  | [], k, d => [(k, d)]
  | kv :: rest, k, d =>
      if kv.1 = k then (kv.1, kv.2 + d) :: rest else kv :: upsertApprox rest k d

/-- Reading `entity_approx_votes.approximate_votes` for a key; an absent row
reads as the schema default `0`. -/
def lookupApprox : List ((String × String) × Int) → (String × String) → Int
  | [], _ => 0
  | kv :: rest, k => if kv.1 = k then kv.2 else lookupApprox rest k

/-- A SQL statement executed inside the `give_votes` transaction. -/
inductive DbOp where
  | insertVote (row : VoteRow)
  | upsertApproxVotes (key : String × String) (delta : Int)
deriving DecidableEq, Repr

/-- Effect of one statement on the committed store. -/
def applyOp (db : VotesDb) : DbOp → VotesDb
  | .insertVote r => { db with votes := db.votes ++ [r] }
  | .upsertApproxVotes k d => { db with approx := upsertApprox db.approx k d }

/-- The statements `give_votes` issues, in order: `per_user` inserts with
`vote_num` `0, 1, ..., per_user - 1`, then the approximate-votes upsert with
delta `+per_user` for an upvote and `-per_user` for a downvote. -/
def give_votes_ops (tt : String) (perUser : Nat) (id user : String)
    (upvote : Bool) (now : Int) (freshItag : Nat → Nat) : List DbOp :=
  ((newVoteRows tt perUser id user upvote now freshItag).map DbOp.insertVote)
    ++ [DbOp.upsertApproxVotes (id, tt)
          (if upvote then (perUser : Int) else -(perUser : Int))]

/-- A database transaction: the statements either all commit (`failAt = none`,
or a `failAt` index past every statement and the commit) or the transaction
rolls back and the store is untouched. `failAt = some k` with `k` at most the
number of statements models statement `k` (or the commit itself) failing. -/
def runTransaction (db : VotesDb) (ops : List DbOp) (failAt : Option Nat) :
    Except String VotesDb :=
  match failAt with
  | some k =>
      if k ≤ ops.length then .error "statement failed; transaction rolled back"
      else .ok (ops.foldl applyOp db)
  | none => .ok (ops.foldl applyOp db)

/-- `EntityManager::give_votes`: run all inserts and the upsert in a single
transaction. -/
def give_votes (db : VotesDb) (tt : String) (perUser : Nat) (id user : String)
    (upvote : Bool) (now : Int) (freshItag : Nat → Nat) (failAt : Option Nat) :
    Except String VotesDb :=
  runTransaction db (give_votes_ops tt perUser id user upvote now freshItag) failAt

/-- The store visible to readers after the call: the new store on success, the
unchanged one after a rollback. -/
def visibleDb (db : VotesDb) (r : Except String VotesDb) : VotesDb :=
  match r with
  | .ok db2 => db2
  | .error _ => db

/-- A matching vote row with the given `itag`, all sharing `created_at = 5`
(used to exhibit the unspecified tie order). -/
def cexRow (itag : Nat) : VoteRow :=
  { itag := itag, targetId := "x", targetType := "dummy", author := "u",
    upvote := true, void := false, voidReason := none, createdAt := 5,
    voteNum := 0, voidedAt := none, immutable := false }

/-- A stored table whose rows tie on `created_at` in the order 2, 1, 3. -/
def cexDb : List VoteRow := [cexRow 2, cexRow 1, cexRow 3]

/-- The store produced by committing `give_votes` with `per_user = 2` on an
empty store (upvote for entity `("x", "dummy")` by user "u" at time 7). -/
def exampleVotesResult : VotesDb :=
  (give_votes_ops "dummy" 2 "x" "u" true 7 (fun i => 100 + i)).foldl applyOp ⟨[], []⟩

end Entity

namespace Datamgmt

/-- The cryptographic primitives used by `aes256encrypt`/`aes256decrypt`
(`src/service/luacore/datamgmt.rs`): the Argon2id key derivation
(`create_aes256_cipher`: passphrase and salt to a 32-byte key) and the
AES-256-GCM seal/open operations of the external `aes_gcm` crate. They live in
external crates, so they are abstracted here; their contracts enter the
theorems as hypotheses. -/
structure CryptoPrim where
  kdf : String → List Nat → List Nat
  enc : List Nat → List Nat → List Nat → List Nat
  dec : List Nat → List Nat → List Nat → Option (List Nat)

/-- `aes256encrypt`: derive the key from the passphrase and the fresh 8-byte
salt, seal the data with the fresh 12-byte nonce, and emit
`salt || nonce || ciphertext_with_tag` (the salt and nonce are the random
bytes drawn by the source, passed here as parameters). -/
def aes256encrypt (P : CryptoPrim) (salt nonce : List Nat) (data : List Nat)
    (key : String) : List Nat :=
  salt ++ nonce ++ P.enc (P.kdf key salt) nonce data

/-- `aes256decrypt`: reject blobs shorter than 20 bytes, split the blob into
`salt = blob[..8]`, `nonce = blob[8..20]`, `ciphertext = blob[20..]`, re-derive
the key from the passphrase and the parsed salt, and open the ciphertext. -/
def aes256decrypt (P : CryptoPrim) (blob : List Nat) (key : String) :
    Except String (List Nat) :=
  if blob.length < 20 then .error "Blob data is too short to decrypt"
  else
    match P.dec (P.kdf key (blob.take 8)) ((blob.drop 8).take 12) (blob.drop 20) with
    | some r => .ok r
    | none => .error "Failed to decrypt"

/-- A toy key derivation (length-tagged passphrase bytes followed by the salt)
used to witness that the crypto contract hypotheses are satisfiable. -/
def toyKdf (p : String) (salt : List Nat) : List Nat :=
  (p.toList.map Char.toNat) ++ salt

/-- A toy seal: length-tagged key and nonce followed by the plaintext. -/
def toyEnc (k n m : List Nat) : List Nat :=
  (k.length :: k) ++ (n.length :: n) ++ m

/-- The toy open operation matching `toyEnc`: checks the tagged key and nonce
and returns the remainder. -/
def toyDec (k n c : List Nat) : Option (List Nat) :=
  if c.take (k.length + 1) = k.length :: k then
    if (c.drop (k.length + 1)).take (n.length + 1) = n.length :: n then
      some ((c.drop (k.length + 1)).drop (n.length + 1))
    else none
  else none

/-- The toy crypto primitives bundled. -/
def toyCrypto : CryptoPrim := { kdf := toyKdf, enc := toyEnc, dec := toyDec }

/-- The tar container format handled by the external `tar` crate
(`tar::Builder::append_data` on serialization, `tar::Archive::entries` on
parsing): abstracted as a serializer and parser over entry lists; the crate's
round-trip contract enters the theorem as a hypothesis. -/
structure TarPrim where
  ser : List (List Nat × List Nat) → List Nat
  par : List Nat → Except String (List (List Nat × List Nat))

/-- `HashMap::insert` on the archive's entry map, represented as an association
list: replace the payload under an existing path, else append the entry. -/
def insertEntry : List (List Nat × List Nat) → List Nat → List Nat →
    List (List Nat × List Nat)
  | [], p, d => [(p, d)]
  | e :: rest, p, d => if e.1 = p then (p, d) :: rest else e :: insertEntry rest p d

/-- `TarArchive::from_blob`/`from_array`: parse the container, then fold the
parsed `(path_bytes, data)` entries into the map with `insert`. -/
def from_blob (P : TarPrim) (blob : List Nat) :
    Except String (List (List Nat × List Nat)) :=
  match P.par blob with
  | .ok es => .ok (es.foldl (fun acc e => insertEntry acc e.1 e.2) [])
  | .error e => .error e

/-- `TarArchive::to_blob`: append every `(path, payload)` entry of the map to a
fresh container (the map's iteration order is the list order here). -/
def to_blob (P : TarPrim) (archive : List (List Nat × List Nat)) : List Nat :=
  P.ser archive

/-- `TarArchive` `entries()`: the keys of the entry map. -/
def entriesKeys : List (List Nat × List Nat) → List (List Nat)
  | [] => []
  | e :: rest => e.1 :: entriesKeys rest

/-- A toy container serializer: each entry is emitted as its length-prefixed
path followed by its length-prefixed payload. -/
def encEntry (e : List Nat × List Nat) : List Nat :=
  (e.1.length :: e.1) ++ (e.2.length :: e.2)

/-- Serializes all entries in order. -/
def toySer (l : List (List Nat × List Nat)) : List Nat :=
  l.foldr (fun e acc => encEntry e ++ acc) []

/-- Fuelled parser for the toy container. -/
def toyParseAux : Nat → List Nat → Option (List (List Nat × List Nat))
  | _, [] => some []
  | 0, _ :: _ => none
  | fuel + 1, plen :: rest =>
      match rest.drop plen with
      | dlen :: rest2 =>
          match toyParseAux fuel (rest2.drop dlen) with
          | some es => some ((rest.take plen, rest2.take dlen) :: es)
          | none => none
      | [] => none

/-- The toy container primitives bundled. -/
def toyTar : TarPrim :=
  { ser := toySer,
    par := fun b =>
      match toyParseAux b.length b with
      | some es => .ok es
      | none => .error "invalid tar blob" }

end Datamgmt

namespace Discord

/-- `Permissions::all()`: every permission bit (modelled as the low 64 bits). -/
def ALL_PERMS : Nat := 2 ^ 64 - 1

/-- Discord's ADMINISTRATOR permission bit. -/
def ADMINISTRATOR : Nat := 1 <<< 3

/-- Discord's KICK_MEMBERS permission bit. -/
def KICK_MEMBERS : Nat := 1 <<< 1

/-- `Permissions::contains`: every needed bit is present. -/
def containsPerm (perms needed : Nat) : Bool := perms &&& needed == needed

/-- A guild role: id, hierarchy position, permission bits. -/
structure Role where
  id : Nat
  position : Nat
  permissions : Nat
deriving DecidableEq, Repr

/-- A guild member: user id and role ids. -/
structure Member where
  userId : Nat
  roles : List Nat
deriving DecidableEq, Repr

/-- The guild snapshot used by the pre-checks: guild id (which doubles as the
id of the everyone role), owner id, and the role table. -/
structure Guild where
  guildId : Nat
  ownerId : Nat
  roles : List Role
deriving DecidableEq, Repr

/-- Role lookup in the guild's role table. -/
def Guild.findRole (g : Guild) (rid : Nat) : Option Role :=
  g.roles.find? (fun r => r.id == rid)

/-- `serenity_backports::calculate_permissions`: the owner gets all bits; role
permissions are OR-folded over the everyone-role base; ADMINISTRATOR holders
get all bits. -/
def calculate_permissions (isGuildOwner : Bool) (everyonePermissions : Nat)
    (userRolesPermissions : List Nat) : Nat :=
  if isGuildOwner then ALL_PERMS
  else
    let permissions := userRolesPermissions.foldl (fun a b => a ||| b)
      everyonePermissions
    if containsPerm permissions ADMINISTRATOR then ALL_PERMS else permissions

/-- `serenity_backports::user_permissions`: assembles the inputs for
`calculate_permissions` — a missing everyone role or member role contributes no
bits. -/
def user_permissions (memberUserId : Nat) (memberRoles : List Nat)
    (guildId : Nat) (guildRoles : List Role) (guildOwnerId : Nat) : Nat :=
  calculate_permissions (memberUserId == guildOwnerId)
    (match guildRoles.find? (fun r => r.id == guildId) with
     | some role => role.permissions
     | none => 0)
    (memberRoles.map (fun roleId =>
      match guildRoles.find? (fun r => r.id == roleId) with
      | some role => role.permissions
      | none => 0))

/-- `serenity_backports::member_permissions`. -/
def member_permissions (g : Guild) (m : Member) : Nat :=
  user_permissions m.userId m.roles g.guildId g.roles g.ownerId

/-- The role comparison used by `serenity_backports::highest_role`
(serenity's role ordering: by position, ties by id; the ordering itself lives
in the external serenity crate). -/
def roleGT (a b : Role) : Bool :=
  a.position > b.position || (a.position == b.position && a.id > b.id)

/-- `serenity_backports::highest_role`: scan the member's roles, keeping the
greatest role found in the guild's role table. -/
def highest_role (g : Guild) (m : Member) : Option Role :=
  m.roles.foldl
    (fun acc roleId =>
      match g.findRole roleId with
      | some role =>
          match acc with
          | some h => if roleGT role h then some role else acc
          | none => some role
      | none => acc)
    none

/-- The member's highest role position (no role reads as position 0). -/
def highestRolePos (g : Guild) (m : Member) : Nat :=
  ((highest_role g m).map (·.position)).getD 0

/-- Modelled from the spec: the guild hierarchy comparison
`greater_member_hierarchy` invoked by `check_permissions_and_hierarchy` is
provided by the external serenity crate and is absent from the source tree.
Per the spec (4.5.6, hierarchy pre-check) the acting member's highest role must
be strictly greater than the target's: the member with the strictly higher
highest-role position wins, and nobody wins a tie. -/
def greater_member_hierarchy (g : Guild) (lhs rhs : Member) : Option Nat :=
  if highestRolePos g lhs > highestRolePos g rhs then some lhs.userId
  else if highestRolePos g rhs > highestRolePos g lhs then some rhs.userId
  else none

/-- The provider as seen by `remove_guild_member`: the `get_guild` and
`get_guild_member` read results (a null member json reads as `none`), the
cached current user, the `attempt_action` rate-limit gate, and the result the
provider would return for the action call itself. -/
structure ProviderData where
  guild : Except String Guild
  members : Nat → Except String (Option Member)
  currentUser : Option Nat
  attemptAction : String → Except String Unit
  removeResult : Except String Unit

/-- `DiscordActionExecutor::check_permissions_and_hierarchy`
(`src/service/discord/mod.rs` lines 95-168): fetch the guild and the acting
member (failing when absent), require the needed permissions, fetch the target
member (failing when absent), and require the acting member to be the strictly
higher one in the guild hierarchy. -/
def check_permissions_and_hierarchy (p : ProviderData)
    (userId targetId needed : Nat) : Except String Unit :=
  match p.guild with
  | .error e => .error e
  | .ok guild =>
    match p.members userId with
    | .error e => .error e
    | .ok none => .error "Bot user not found in guild"
    | .ok (some member) =>
      let memberPerms := member_permissions guild member
      if !(containsPerm memberPerms needed) then
        .error "User does not have the required permissions"
      else
        match p.members targetId with
        | .error e => .error e
        | .ok none => .error "User not found in guild"
        | .ok (some targetMember) =>
          match greater_member_hierarchy guild member targetMember with
          | none => .error "User does not have a higher role than the target user"
          | some higherId =>
            if higherId != member.userId then
              .error "User does not have a higher role than the target user"
            else .ok ()

/-- `DiscordActionExecutor::check_reason`: longer than 512 bytes or empty is
rejected. -/
def check_reason (reason : String) : Except String Unit :=
  if reason.utf8ByteSize > 512 then .error "Reason is too long"
  else if reason.isEmpty then .error "Reason is empty"
  else .ok ()

/-- Calls issued to the provider by the action method (the reads performed by
the pre-checks are captured in `ProviderData`; this trace records the
rate-limit gate and the action call itself). -/
inductive ProviderCall where
  | attemptAction (name : String)
  | removeGuildMember (userId : Nat)
deriving DecidableEq, Repr

/-- The `remove_guild_member` action method: `check_action`, resolve the
current user, `check_permissions_and_hierarchy` with KICK_MEMBERS,
`check_reason`, then — only if all pre-checks passed — the provider's
`remove_guild_member` call. Returns the script-visible result and the trace of
provider action calls. -/
def remove_guild_member (p : ProviderData) (targetId : Nat) (reason : String) :
    Except String Unit × List ProviderCall :=
  match p.attemptAction "remove_guild_member" with
  | .error e => (.error e, [.attemptAction "remove_guild_member"])
  | .ok _ =>
    match p.currentUser with
    | none => (.error "Internal error: Current user not found",
        [.attemptAction "remove_guild_member"])
    | some botId =>
      match check_permissions_and_hierarchy p botId targetId KICK_MEMBERS with
      | .error e => (.error e, [.attemptAction "remove_guild_member"])
      | .ok _ =>
        match check_reason reason with
        | .error e => (.error e, [.attemptAction "remove_guild_member"])
        | .ok _ => (p.removeResult,
            [.attemptAction "remove_guild_member", .removeGuildMember targetId])

/-- The S7 guild: everyone role (id 1) grants KICK_MEMBERS; the bot's role sits
at position 5 and the target's at position 8; the owner is neither member. -/
def s7Guild : Guild :=
  { guildId := 1, ownerId := 50,
    roles := [{ id := 1, position := 0, permissions := KICK_MEMBERS },
              { id := 10, position := 5, permissions := KICK_MEMBERS },
              { id := 20, position := 8, permissions := 0 }] }

/-- The S7 bot member (highest role position 5). -/
def s7Bot : Member := { userId := 100, roles := [10] }

/-- The S7 target member (highest role position 8). -/
def s7Target : Member := { userId := 200, roles := [20] }

/-- The S7 provider: both members resolve, the rate-limit gate passes, and the
action call itself would succeed if reached. -/
def s7Provider : ProviderData :=
  { guild := .ok s7Guild,
    members := fun uid =>
      if uid == 100 then .ok (some s7Bot)
      else if uid == 200 then .ok (some s7Target)
      else .ok none,
    currentUser := some 100,
    attemptAction := fun _ => .ok (),
    removeResult := .ok () }

end Discord

end Apoptosis

namespace Apoptosis

namespace Lua

theorem close_luaPresent (s : VmState) : (close s).luaPresent = false := by
  unfold close
  by_cases h : s.luaPresent <;> simp [h]

theorem close_broken (s : VmState) : (close s).broken = true := by
  unfold close
  by_cases h : s.luaPresent <;> simp [h]

theorem mark_broken_luaPresent (s : VmState) (b : Bool) :
    (mark_broken s b).luaPresent = false := by
  unfold mark_broken
  by_cases h : b && (close s).onBrokenSet <;>
    simp [h, close_luaPresent]

theorem mark_broken_calls_true (s : VmState) (h : s.onBrokenSet = true) :
    (mark_broken s true).onBrokenCalls = s.onBrokenCalls + 1 := by
  unfold mark_broken close
  by_cases hl : s.luaPresent <;> simp [hl, h]

theorem mark_broken_broken (s : VmState) (b : Bool) :
    (mark_broken s b).broken = true := by
  unfold mark_broken
  by_cases h : b && (close s).onBrokenSet <;> simp [h, close_broken]

theorem update_time_luaPresent (s : VmState) (t : Nat) :
    (update_last_execution_time s t).luaPresent = s.luaPresent := rfl

theorem eval_script_invalid {α : Type} (s : VmState) (h : s.luaPresent = false)
    (now : Nat) (res : Except LuaErr α) :
    (eval_script s now res).2 = .error (.runtime "Lua VM is not valid") := by
  unfold eval_script
  simp [update_time_luaPresent, h, update_last_execution_time]

theorem eval_chunk_invalid {α : Type} (s : VmState) (h : s.luaPresent = false)
    (now : Nat) (compiled : Except LuaErr α) :
    (eval_chunk s now compiled).2 = .error (.runtime "Lua VM is not valid") := by
  unfold eval_chunk
  simp [update_time_luaPresent, h, update_last_execution_time]

theorem with_lua_invalid {α : Type} (s : VmState) (h : s.luaPresent = false)
    (f : Except LuaErr α) :
    (with_lua s f).2 = .error (.runtime "Lua VM is not valid") := by
  unfold with_lua
  simp [h]

theorem from_value_invalid {α : Type} (s : VmState) (h : s.luaPresent = false)
    (conv : Except LuaErr α) :
    (from_value s conv).2 = .error (.runtime "Lua VM is not valid") := by
  unfold from_value
  simp [h]

theorem call_in_scheduler_invalid {α : Type} (s : VmState) (h : s.luaPresent = false)
    (now now2 : Nat) (ct ac : Except LuaErr Unit)
    (sched : Except LuaErr (Option (Except LuaErr α))) (ce cv : Except LuaErr α) :
    (call_in_scheduler s now now2 ct ac sched ce cv).2 =
      .error (.runtime "Lua VM is not valid") := by
  unfold call_in_scheduler
  simp [update_time_luaPresent, h, update_last_execution_time]

end Lua

/-- C2: the interrupt predicate yields immediately when the broken flag is set;
otherwise it fails with the non-recoverable error
"Script execution time limit exceeded" exactly when an execution stop instant is
set and now is strictly past it, and continues otherwise; and the scheduler
resume hook extends the stop instant to `now + give_time` whenever the current
stop instant is earlier than that, leaves later stop instants unchanged, so any
stop instant present after a resume is at least `now + give_time`. -/
theorem C2_interrupt_and_resume (broken : Bool) (stop : Option Nat)
    (now giveTime : Nat) :
    (broken = true → Lua.interruptCheck broken stop now = .yield)
    ∧ (broken = false →
        ((∃ limit, stop = some limit ∧ now > limit) ↔
          Lua.interruptCheck broken stop now =
            .runtimeError "Script execution time limit exceeded"))
    ∧ (broken = false →
        (Lua.interruptCheck broken stop now = .cont ↔
          ¬ ∃ limit, stop = some limit ∧ now > limit))
    ∧ (∀ currStop, currStop < now + giveTime →
        Lua.onResume giveTime (some currStop) now = some (now + giveTime))
    ∧ (∀ currStop, now + giveTime ≤ currStop →
        Lua.onResume giveTime (some currStop) now = some currStop)
    ∧ (∀ v, Lua.onResume giveTime stop now = some v → now + giveTime ≤ v)
    ∧ Lua.onResume giveTime none now = none := by
  refine ⟨?_, ?_, ?_, ?_, ?_, ?_, rfl⟩
  · intro hb; simp [Lua.interruptCheck, hb]
  · intro hb
    constructor
    · rintro ⟨limit, hs, hgt⟩
      simp [Lua.interruptCheck, hb, hs, hgt]
    · intro hres
      cases stop with
      | none => simp [Lua.interruptCheck, hb] at hres
      | some limit =>
          by_cases hgt : now > limit
          · exact ⟨limit, rfl, hgt⟩
          · simp [Lua.interruptCheck, hb, hgt] at hres
  · intro hb
    constructor
    · intro hres
      rintro ⟨limit, hs, hgt⟩
      simp [Lua.interruptCheck, hb, hs, hgt] at hres
    · intro hne
      cases stop with
      | none => simp [Lua.interruptCheck, hb]
      | some limit =>
          by_cases hgt : now > limit
          · exact absurd ⟨limit, rfl, hgt⟩ hne
          · simp [Lua.interruptCheck, hb, hgt]
  · intro currStop hlt; simp [Lua.onResume, hlt]
  · intro currStop hle; simp [Lua.onResume, Nat.not_lt.mpr hle]
  · intro v hv
    cases stop with
    | none => simp [Lua.onResume] at hv
    | some currStop =>
        by_cases hlt : currStop < now + giveTime
        · simp [Lua.onResume, hlt] at hv
          omega
        · simp [Lua.onResume, hlt] at hv
          omega

/-- Witness for C2 at concrete inputs: broken yields; a stop instant of 3 with
now 5 errors; a stop instant of 7 with now 5 continues; the resume hook extends
6 to 14 and keeps 20 with now 10 and give time 4. -/
theorem C2_witness :
    Lua.interruptCheck true (some 0) 5 = .yield
    ∧ Lua.interruptCheck false (some 3) 5 =
        .runtimeError "Script execution time limit exceeded"
    ∧ Lua.interruptCheck false (some 7) 5 = .cont
    ∧ Lua.onResume 4 (some 6) 10 = some 14
    ∧ Lua.onResume 4 (some 20) 10 = some 20 := by
  refine ⟨(C2_interrupt_and_resume true (some 0) 5 4).1 rfl,
    ((C2_interrupt_and_resume false (some 3) 5 4).2.1 rfl).mp
      ⟨3, rfl, by decide⟩,
    ((C2_interrupt_and_resume false (some 7) 5 4).2.2.1 rfl).mpr ?_,
    (C2_interrupt_and_resume false (some 6) 10 4).2.2.2.1 6 (by decide),
    (C2_interrupt_and_resume false (some 20) 10 4).2.2.2.2.1 20 (by decide)⟩
  rintro ⟨limit, hs, hgt⟩
  injection hs with h
  omega

/-- C1 counterexample: `mark_broken(true)` invokes the registered `on_broken`
callback on every call, so after a second `mark_broken(true)` on the same VM
the callback has been called twice, not exactly once over the VM's lifetime. -/
theorem C1_counterexample :
    (Lua.mark_broken (Lua.mark_broken Lua.vm0 true) true).onBrokenCalls = 2
    ∧ (Lua.mark_broken (Lua.mark_broken Lua.vm0 true) true).onBrokenCalls ≠ 1 := by
  refine ⟨by decide, by decide⟩

/-- C1 (amended): after `mark_broken(true)` on a VM whose registered `on_broken`
callback has not yet fired, the Lua state has been dropped, the broken flag is
set, the callback has been called exactly once so far (each further
`mark_broken(true)` would invoke it again), and every subsequent script
invocation (`eval_script`, `call_in_scheduler`, `with_lua`) fails with the
stable error string "Lua VM is not valid". -/
theorem C1_mark_broken_amended (s : Lua.VmState) (hset : s.onBrokenSet = true)
    (hcalls : s.onBrokenCalls = 0) :
    (Lua.mark_broken s true).luaPresent = false
    ∧ (Lua.mark_broken s true).broken = true
    ∧ (Lua.mark_broken s true).onBrokenCalls = 1
    ∧ (∀ (now : Nat) (res : Except Lua.LuaErr Unit),
        (Lua.eval_script (Lua.mark_broken s true) now res).2 =
          .error (.runtime "Lua VM is not valid"))
    ∧ (∀ (now now2 : Nat) (ct ac : Except Lua.LuaErr Unit)
        (sched : Except Lua.LuaErr (Option (Except Lua.LuaErr Unit)))
        (ce cv : Except Lua.LuaErr Unit),
        (Lua.call_in_scheduler (Lua.mark_broken s true) now now2 ct ac sched ce cv).2 =
          .error (.runtime "Lua VM is not valid"))
    ∧ (∀ (f : Except Lua.LuaErr Unit),
        (Lua.with_lua (Lua.mark_broken s true) f).2 =
          .error (.runtime "Lua VM is not valid")) := by
  have hlp := Lua.mark_broken_luaPresent s true
  refine ⟨hlp, Lua.mark_broken_broken s true, ?_, ?_, ?_, ?_⟩
  · rw [Lua.mark_broken_calls_true s hset, hcalls]
  · intro now res; exact Lua.eval_script_invalid _ hlp now res
  · intro now now2 ct ac sched ce cv
    exact Lua.call_in_scheduler_invalid _ hlp now now2 ct ac sched ce cv
  · intro f; exact Lua.with_lua_invalid _ hlp f

/-- Witness for the amended C1 on the concrete fresh VM `vm0`. -/
theorem C1_mark_broken_witness :
    (Lua.mark_broken Lua.vm0 true).luaPresent = false
    ∧ (Lua.mark_broken Lua.vm0 true).onBrokenCalls = 1
    ∧ (Lua.with_lua (Lua.mark_broken Lua.vm0 true)
        (Except.ok ())).2 = .error (.runtime "Lua VM is not valid") :=
  ⟨(C1_mark_broken_amended Lua.vm0 rfl rfl).1,
   (C1_mark_broken_amended Lua.vm0 rfl rfl).2.2.1,
   (C1_mark_broken_amended Lua.vm0 rfl rfl).2.2.2.2.2 (Except.ok ())⟩

/-- C10: after `close()` the broken flag is set, every script operation
(`eval_script`, `eval_chunk`, `call_in_scheduler`, `from_value`, `with_lua`)
fails with "Lua VM is not valid", and `memory_usage()` returns 0 instead of
failing — a VM closed directly behaves as broken for all further operations. -/
theorem C10_close_behaves_broken (s : Lua.VmState) (now now2 used : Nat)
    (res compiled conv f ct ac : Except Lua.LuaErr Unit)
    (sched : Except Lua.LuaErr (Option (Except Lua.LuaErr Unit)))
    (ce cv : Except Lua.LuaErr Unit) :
    Lua.is_broken (Lua.close s) = true
    ∧ (Lua.eval_script (Lua.close s) now res).2 =
        .error (.runtime "Lua VM is not valid")
    ∧ (Lua.eval_chunk (Lua.close s) now compiled).2 =
        .error (.runtime "Lua VM is not valid")
    ∧ (Lua.call_in_scheduler (Lua.close s) now now2 ct ac sched ce cv).2 =
        .error (.runtime "Lua VM is not valid")
    ∧ (Lua.from_value (Lua.close s) conv).2 =
        .error (.runtime "Lua VM is not valid")
    ∧ (Lua.with_lua (Lua.close s) f).2 =
        .error (.runtime "Lua VM is not valid")
    ∧ Lua.memory_usage (Lua.close s) used = 0 := by
  have hlp := Lua.close_luaPresent s
  exact ⟨Lua.close_broken s,
    Lua.eval_script_invalid _ hlp now res,
    Lua.eval_chunk_invalid _ hlp now compiled,
    Lua.call_in_scheduler_invalid _ hlp now now2 ct ac sched ce cv,
    Lua.from_value_invalid _ hlp conv,
    Lua.with_lua_invalid _ hlp f,
    by simp [Lua.memory_usage, hlp]⟩

/-- C4: `get_session_by_token` first deletes every row with `expiry < now`
(the surviving table holds exactly the rows of the input with `expiry >= now`),
then returns some session iff a row with the given token and `expiry >= now`
exists after that sweep — and any returned session is such a row. -/
theorem C4_get_session_by_token (db : List Session.SessionRow) (now : Int)
    (t : String) :
    (∀ r, r ∈ (Session.get_session_by_token db now t).1 ↔
        r ∈ db ∧ now ≤ r.expiry)
    ∧ ((Session.get_session_by_token db now t).2.isSome ↔
        ∃ r ∈ (Session.get_session_by_token db now t).1,
          r.token = t ∧ now ≤ r.expiry)
    ∧ (∀ s, (Session.get_session_by_token db now t).2 = some s →
        s ∈ (Session.get_session_by_token db now t).1
          ∧ s.token = t ∧ now ≤ s.expiry) := by
  refine ⟨?_, ?_, ?_⟩
  · intro r
    simp [Session.get_session_by_token, Session.sweepExpired, List.mem_filter,
      Int.not_lt]
  · rw [show (Session.get_session_by_token db now t).2 =
        (Session.get_session_by_token db now t).1.find?
          (fun r => r.token == t && decide (now ≤ r.expiry)) from rfl]
    rw [List.find?_isSome]
    constructor
    · rintro ⟨r, hr, hp⟩
      simp only [Bool.and_eq_true, beq_iff_eq, decide_eq_true_eq] at hp
      exact ⟨r, hr, hp.1, hp.2⟩
    · rintro ⟨r, hr, h1, h2⟩
      exact ⟨r, hr, by simp [h1, h2]⟩
  · intro s hs
    have hs' : (Session.get_session_by_token db now t).1.find?
        (fun r => r.token == t && decide (now ≤ r.expiry)) = some s := hs
    have hmem := List.mem_of_find?_eq_some hs'
    have hp := List.find?_some hs'
    simp only [Bool.and_eq_true, beq_iff_eq, decide_eq_true_eq] at hp
    exact ⟨hmem, hp.1, hp.2⟩

/-- Witness for C4 on a concrete table: with now 5, the live row survives the
sweep, the lookup for its token is some, and the returned session is that row;
the expired row is swept away. -/
theorem C4_witness :
    (Session.sessRow1 ∈
        (Session.get_session_by_token
          [Session.sessRow1, Session.sessRow2] 5 "tok1").1)
    ∧ (Session.get_session_by_token
        [Session.sessRow1, Session.sessRow2] 5 "tok1").2.isSome = true
    ∧ ¬ (Session.sessRow2 ∈
        (Session.get_session_by_token
          [Session.sessRow1, Session.sessRow2] 5 "tok1").1) := by
  have h := C4_get_session_by_token [Session.sessRow1, Session.sessRow2] 5 "tok1"
  have hmem : Session.sessRow1 ∈
      (Session.get_session_by_token
        [Session.sessRow1, Session.sessRow2] 5 "tok1").1 :=
    (h.1 Session.sessRow1).mpr ⟨by decide, by decide⟩
  refine ⟨hmem, h.2.1.mpr ⟨Session.sessRow1, hmem, rfl, by decide⟩, ?_⟩
  intro hbad
  have := ((h.1 Session.sessRow2).mp hbad).2
  revert this
  decide

/-- C3: `get_permit_for` returns `InvalidToken` when the token lookup finds no
session; `EntityNotSupported` when no manager is registered for the session's
target type; `ApiBanned` with the session when the entity's flags have the
`BANNED` bit; and `Success` with the session, flags and manager otherwise. -/
theorem C3_get_permit_for (env : Session.Env) (t : String) :
    ((Session.get_session_by_token env.db env.now t).2 = none →
        Session.get_permit_for env t = .ok .invalidToken)
    ∧ (∀ auth, (Session.get_session_by_token env.db env.now t).2 = some auth →
        env.managerFor auth.targetType = none →
        Session.get_permit_for env t = .ok .entityNotSupported)
    ∧ (∀ auth manager flags,
        (Session.get_session_by_token env.db env.now t).2 = some auth →
        env.managerFor auth.targetType = some manager →
        manager.flagsOf auth.targetId = .ok flags →
        Session.flagsContains flags Session.BANNED = true →
        Session.get_permit_for env t = .ok (.apiBanned auth))
    ∧ (∀ auth manager flags,
        (Session.get_session_by_token env.db env.now t).2 = some auth →
        env.managerFor auth.targetType = some manager →
        manager.flagsOf auth.targetId = .ok flags →
        Session.flagsContains flags Session.BANNED = false →
        Session.get_permit_for env t =
          .ok (.success auth flags manager.targetType)) := by
  refine ⟨?_, ?_, ?_, ?_⟩
  · intro h; simp [Session.get_permit_for, h]
  · intro auth h hm; simp [Session.get_permit_for, h, hm]
  · intro auth manager flags h hm hf hb
    simp [Session.get_permit_for, h, hm, hf, hb]
  · intro auth manager flags h hm hf hb
    simp [Session.get_permit_for, h, hm, hf, hb]

/-- Witness for C3: the concrete environment exercises all four branches —
an unknown token, an unsupported target type, a banned entity, and success. -/
theorem C3_witness :
    Session.get_permit_for Session.env0 "missing" = .ok .invalidToken
    ∧ Session.get_permit_for Session.env0 "tokU" = .ok .entityNotSupported
    ∧ Session.get_permit_for Session.env0 "tokB" =
        .ok (.apiBanned Session.sessRowB)
    ∧ Session.get_permit_for Session.env0 "tok1" =
        .ok (.success Session.sessRow1 0 "dummy") := by
  exact ⟨(C3_get_permit_for Session.env0 "missing").1 (by decide),
    (C3_get_permit_for Session.env0 "tokU").2.1 Session.sessRowU
      (by decide) (by rfl),
    (C3_get_permit_for Session.env0 "tokB").2.2.1 Session.sessRowB
      Session.dummyManager (1 <<< 6) (by decide) (by rfl) (by rfl) (by decide),
    (C3_get_permit_for Session.env0 "tok1").2.2.2 Session.sessRow1
      Session.dummyManager 0 (by decide) (by rfl) (by rfl) (by decide)⟩

namespace Entity

theorem foldl_insertVotes (rows : List VoteRow) (db : VotesDb) :
    ((rows.map DbOp.insertVote).foldl applyOp db) =
      { db with votes := db.votes ++ rows } := by
  induction rows generalizing db with
  | nil => simp
  | cons r rows ih =>
      simp only [List.map_cons, List.foldl_cons, applyOp, ih,
        List.append_assoc, List.singleton_append]

theorem lookupApprox_upsert (a : List ((String × String) × Int))
    (k : String × String) (d : Int) :
    lookupApprox (upsertApprox a k d) k = lookupApprox a k + d := by
  induction a with
  | nil => simp [upsertApprox, lookupApprox]
  | cons kv rest ih =>
      by_cases h : kv.1 = k
      · simp [upsertApprox, lookupApprox, h]
      · simp [upsertApprox, lookupApprox, h, ih]

theorem newVoteRows_length (tt : String) (perUser : Nat) (id user : String)
    (upvote : Bool) (now : Int) (freshItag : Nat → Nat) :
    (newVoteRows tt perUser id user upvote now freshItag).length = perUser := by
  simp [newVoteRows]

theorem newVoteRows_voteNum (tt : String) (perUser : Nat) (id user : String)
    (upvote : Bool) (now : Int) (freshItag : Nat → Nat) :
    (newVoteRows tt perUser id user upvote now freshItag).map (·.voteNum) =
      (List.range perUser).map Int.ofNat := by
  simp only [newVoteRows, List.map_map]
  rfl

theorem give_votes_ops_foldl (db : VotesDb) (tt : String) (perUser : Nat)
    (id user : String) (upvote : Bool) (now : Int) (freshItag : Nat → Nat) :
    (give_votes_ops tt perUser id user upvote now freshItag).foldl applyOp db =
      { votes := db.votes ++ newVoteRows tt perUser id user upvote now freshItag,
        approx := upsertApprox db.approx (id, tt)
          (if upvote then (perUser : Int) else -(perUser : Int)) } := by
  simp only [give_votes_ops, List.foldl_append, foldl_insertVotes,
    List.foldl_cons, List.foldl_nil, applyOp]

theorem mem_filter_props (l : List VoteRow) (tt user id : String) (r : VoteRow)
    (h : r ∈ l.filter
      (fun x => x.author == user && x.targetId == id && x.targetType == tt)) :
    r.author = user ∧ r.targetId = id ∧ r.targetType = tt := by
  have hp := (List.mem_filter.mp h).2
  simp only [Bool.and_eq_true, beq_iff_eq] at hp
  exact ⟨hp.1.1, hp.1.2, hp.2⟩

theorem mem_baseFilter (db : List VoteRow) (tt user id : String)
    (onlyValid : Bool) (r : VoteRow) (h : r ∈ baseFilter db tt user id onlyValid) :
    r.author = user ∧ r.targetId = id ∧ r.targetType = tt
      ∧ (onlyValid = true → r.void = false) := by
  cases onlyValid with
  | false =>
      unfold baseFilter at h
      simp only [Bool.false_eq_true, if_false] at h
      exact ⟨(mem_filter_props db tt user id r h).1,
        (mem_filter_props db tt user id r h).2.1,
        (mem_filter_props db tt user id r h).2.2,
        fun hc => absurd hc (by decide)⟩
  | true =>
      unfold baseFilter at h
      simp only [if_true] at h
      have h1 := (List.mem_filter.mp h).1
      have h2 := (List.mem_filter.mp h).2
      simp only [beq_iff_eq] at h2
      exact ⟨(mem_filter_props db tt user id r h1).1,
        (mem_filter_props db tt user id r h1).2.1,
        (mem_filter_props db tt user id r h1).2.2, fun _ => h2⟩

end Entity

/-- C5: a committed `give_votes` appends, within one transaction, exactly
`per_user` new rows to `entity_votes` whose `vote_num` take the successive
values `0` through `per_user - 1`, and changes the `entity_approx_votes` value
for the entity by `+per_user` for an upvote and `-per_user` for a downvote;
a failure of any statement (or of the commit) rolls the whole transaction back,
so the visible store is either untouched or carries all effects. -/
theorem C5_give_votes (db : Entity.VotesDb) (tt : String) (perUser : Nat)
    (id user : String) (upvote : Bool) (now : Int) (freshItag : Nat → Nat) :
    (∀ db2,
        Entity.give_votes db tt perUser id user upvote now freshItag none = .ok db2 →
        db2.votes = db.votes ++ Entity.newVoteRows tt perUser id user upvote now freshItag
        ∧ (Entity.newVoteRows tt perUser id user upvote now freshItag).length = perUser
        ∧ (Entity.newVoteRows tt perUser id user upvote now freshItag).map (·.voteNum) =
            (List.range perUser).map Int.ofNat
        ∧ Entity.lookupApprox db2.approx (id, tt) =
            Entity.lookupApprox db.approx (id, tt)
              + (if upvote then (perUser : Int) else -(perUser : Int)))
    ∧ (∀ k, k ≤ (Entity.give_votes_ops tt perUser id user upvote now freshItag).length →
        Entity.give_votes db tt perUser id user upvote now freshItag (some k) =
          .error "statement failed; transaction rolled back")
    ∧ (∀ failAt,
        Entity.visibleDb db
            (Entity.give_votes db tt perUser id user upvote now freshItag failAt) = db
        ∨ Entity.visibleDb db
            (Entity.give_votes db tt perUser id user upvote now freshItag failAt) =
          (Entity.give_votes_ops tt perUser id user upvote now freshItag).foldl
            Entity.applyOp db) := by
  refine ⟨?_, ?_, ?_⟩
  · intro db2 hok
    have hfold :
        Entity.give_votes db tt perUser id user upvote now freshItag none =
          .ok ((Entity.give_votes_ops tt perUser id user upvote now freshItag).foldl
            Entity.applyOp db) := rfl
    rw [hfold] at hok
    injection hok with hok
    subst hok
    rw [Entity.give_votes_ops_foldl]
    exact ⟨rfl, Entity.newVoteRows_length tt perUser id user upvote now freshItag,
      Entity.newVoteRows_voteNum tt perUser id user upvote now freshItag,
      Entity.lookupApprox_upsert db.approx (id, tt) _⟩
  · intro k hk
    simp [Entity.give_votes, Entity.runTransaction, hk]
  · intro failAt
    cases failAt with
    | none => right; rfl
    | some k =>
        by_cases hk :
            k ≤ (Entity.give_votes_ops tt perUser id user upvote now freshItag).length
        · left; simp [Entity.give_votes, Entity.runTransaction, hk, Entity.visibleDb]
        · right; simp [Entity.give_votes, Entity.runTransaction, hk, Entity.visibleDb]

/-- Witness for C5 on the empty store with `per_user = 2`: the committed store
holds exactly the two new rows and the approximate count rose by 2. -/
theorem C5_witness :
    Entity.exampleVotesResult.votes =
      [] ++ Entity.newVoteRows "dummy" 2 "x" "u" true 7 (fun i => 100 + i)
    ∧ Entity.lookupApprox Entity.exampleVotesResult.approx ("x", "dummy") =
        Entity.lookupApprox (Entity.VotesDb.mk [] []).approx ("x", "dummy") + 2 := by
  have h := (C5_give_votes ⟨[], []⟩ "dummy" 2 "x" "u" true 7 (fun i => 100 + i)).1
    Entity.exampleVotesResult (by rfl)
  exact ⟨h.1, by simpa using h.2.2.2⟩

/-- C6 counterexample: with three matching rows tying on `created_at` stored in
`itag` order 2, 1, 3, `fetch_votes` returns them in stored order 2, 1, 3 — the
query orders by `created_at` descending only, so ties are not broken by `itag`
in either direction. -/
theorem C6_counterexample :
    ((Entity.fetch_votes Entity.cexDb "dummy" "u" "x" false none).map (·.itag) =
        [2, 1, 3])
    ∧ (∀ r ∈ Entity.fetch_votes Entity.cexDb "dummy" "u" "x" false none,
        r.createdAt = 5)
    ∧ ([2, 1, 3] : List Nat) ≠ [1, 2, 3]
    ∧ ([2, 1, 3] : List Nat) ≠ [3, 2, 1] :=
  ⟨by decide, by decide, by decide, by decide⟩

/-- C6 (amended): `fetch_votes` returns matching rows ordered by `created_at`
descending (ties left in an unspecified — storage — order, with no `itag`
tie-break); every returned row matches the author/id/type filter and, when
`only_valid = true`, has `void = false`; without a limit/offset the result is
a permutation of all matching rows. -/
theorem C6_fetch_votes_amended (db : List Entity.VoteRow) (tt user id : String)
    (onlyValid : Bool) (lo : Option (Nat × Nat)) :
    List.Sorted Entity.voteGE (Entity.fetch_votes db tt user id onlyValid lo)
    ∧ (∀ r ∈ Entity.fetch_votes db tt user id onlyValid lo,
        r.author = user ∧ r.targetId = id ∧ r.targetType = tt
          ∧ (onlyValid = true → r.void = false))
    ∧ (lo = none →
        (Entity.fetch_votes db tt user id onlyValid lo).Perm
          (Entity.baseFilter db tt user id onlyValid)) := by
  have hs := List.sorted_insertionSort Entity.voteGE
    (Entity.baseFilter db tt user id onlyValid)
  refine ⟨?_, ?_, ?_⟩
  · cases lo with
    | none => exact hs
    | some p =>
        exact List.Pairwise.sublist
          ((List.take_sublist _ _).trans (List.drop_sublist _ _)) hs
  · intro r hr
    have hr2 : r ∈ List.insertionSort Entity.voteGE
        (Entity.baseFilter db tt user id onlyValid) := by
      cases lo with
      | none => exact hr
      | some p =>
          exact ((List.take_sublist _ _).trans (List.drop_sublist _ _)).mem hr
    exact Entity.mem_baseFilter db tt user id onlyValid r
      ((List.mem_insertionSort Entity.voteGE).mp hr2)
  · intro hlo
    subst hlo
    exact List.perm_insertionSort Entity.voteGE
      (Entity.baseFilter db tt user id onlyValid)

/-- Witness for the amended C6 on the concrete tied table with
`only_valid = true`: the result is a permutation of the filtered rows, and a
returned row is non-void. -/
theorem C6_witness :
    (Entity.fetch_votes Entity.cexDb "dummy" "u" "x" true none).Perm
      (Entity.baseFilter Entity.cexDb "dummy" "u" "x" true)
    ∧ (Entity.cexRow 2).void = false := by
  have h := C6_fetch_votes_amended Entity.cexDb "dummy" "u" "x" true none
  exact ⟨h.2.2 rfl, (h.2.1 (Entity.cexRow 2) (by decide)).2.2.2 rfl⟩

/-- C7: with the external AES-256-GCM/Argon2id primitives satisfying their
contracts at the points used (the opened ciphertext is the sealed plaintext
under the same derived key and nonce, and opening under a key derived from a
different passphrase fails), decrypting an encrypted blob with the same
passphrase returns the message, decrypting with a different passphrase fails,
and the encrypted blob has the layout salt(8) || nonce(12) ||
ciphertext_with_tag. -/
theorem C7_aes_roundtrip (P : Datamgmt.CryptoPrim) (salt nonce m : List Nat)
    (k k2 : String) (hsalt : salt.length = 8) (hnonce : nonce.length = 12)
    (hk : k ≠ "") (hkk : k2 ≠ k)
    (hround : P.dec (P.kdf k salt) nonce (P.enc (P.kdf k salt) nonce m) = some m)
    (hwrong : P.dec (P.kdf k2 salt) nonce (P.enc (P.kdf k salt) nonce m) = none) :
    Datamgmt.aes256decrypt P (Datamgmt.aes256encrypt P salt nonce m k) k = .ok m
    ∧ Datamgmt.aes256decrypt P (Datamgmt.aes256encrypt P salt nonce m k) k2 =
        .error "Failed to decrypt"
    ∧ (Datamgmt.aes256encrypt P salt nonce m k).take 8 = salt
    ∧ ((Datamgmt.aes256encrypt P salt nonce m k).drop 8).take 12 = nonce
    ∧ (Datamgmt.aes256encrypt P salt nonce m k).drop 20 =
        P.enc (P.kdf k salt) nonce m := by
  have hblob : Datamgmt.aes256encrypt P salt nonce m k =
      salt ++ (nonce ++ P.enc (P.kdf k salt) nonce m) := by
    simp [Datamgmt.aes256encrypt]
  have htake8 : (Datamgmt.aes256encrypt P salt nonce m k).take 8 = salt := by
    rw [hblob]; exact List.take_left' hsalt
  have hdrop8 : (Datamgmt.aes256encrypt P salt nonce m k).drop 8 =
      nonce ++ P.enc (P.kdf k salt) nonce m := by
    rw [hblob]; exact List.drop_left' hsalt
  have htake12 : ((Datamgmt.aes256encrypt P salt nonce m k).drop 8).take 12 = nonce := by
    rw [hdrop8]; exact List.take_left' hnonce
  have hdrop20 : (Datamgmt.aes256encrypt P salt nonce m k).drop 20 =
      P.enc (P.kdf k salt) nonce m := by
    have h1 : (Datamgmt.aes256encrypt P salt nonce m k).drop 20 =
        ((Datamgmt.aes256encrypt P salt nonce m k).drop 8).drop 12 := by
      rw [List.drop_drop]
    rw [h1, hdrop8]; exact List.drop_left' hnonce
  have hlen : ¬ (Datamgmt.aes256encrypt P salt nonce m k).length < 20 := by
    rw [hblob]
    simp only [List.length_append, hsalt, hnonce]
    omega
  refine ⟨?_, ?_, htake8, htake12, hdrop20⟩
  · unfold Datamgmt.aes256decrypt
    rw [if_neg hlen, htake8, htake12, hdrop20, hround]
  · unfold Datamgmt.aes256decrypt
    rw [if_neg hlen, htake8, htake12, hdrop20, hwrong]

/-- Witness for C7: the toy primitives satisfy the contract hypotheses at a
concrete salt, nonce, message and passphrase pair, and the round trip and
wrong-key rejection follow. -/
theorem C7_witness :
    Datamgmt.aes256decrypt Datamgmt.toyCrypto
      (Datamgmt.aes256encrypt Datamgmt.toyCrypto (List.range 8) (List.range 12)
        [1, 2, 3] "a") "a" = .ok [1, 2, 3]
    ∧ Datamgmt.aes256decrypt Datamgmt.toyCrypto
      (Datamgmt.aes256encrypt Datamgmt.toyCrypto (List.range 8) (List.range 12)
        [1, 2, 3] "a") "b" = .error "Failed to decrypt" := by
  have h := C7_aes_roundtrip Datamgmt.toyCrypto (List.range 8) (List.range 12)
    [1, 2, 3] "a" "b" (by decide) (by decide) (by decide) (by decide)
    (by decide) (by decide)
  exact ⟨h.1, h.2.1⟩

namespace Datamgmt

theorem mem_keys_insertEntry (acc : List (List Nat × List Nat))
    (p d : List Nat) (k : List Nat) :
    k ∈ entriesKeys (insertEntry acc p d) ↔ k = p ∨ k ∈ entriesKeys acc := by
  induction acc with
  | nil => simp [insertEntry, entriesKeys]
  | cons e rest ih =>
      by_cases h : e.1 = p
      · simp only [insertEntry, if_pos h, entriesKeys, List.mem_cons, h]
        tauto
      · simp only [insertEntry, if_neg h, entriesKeys, List.mem_cons, ih]
        tauto

theorem mem_keys_fold (es acc : List (List Nat × List Nat)) (k : List Nat) :
    k ∈ entriesKeys (es.foldl (fun m e => insertEntry m e.1 e.2) acc) ↔
      k ∈ entriesKeys acc ∨ k ∈ entriesKeys es := by
  induction es generalizing acc with
  | nil => simp [entriesKeys]
  | cons e rest ih =>
      rw [List.foldl_cons, ih, mem_keys_insertEntry]
      simp only [entriesKeys, List.mem_cons]
      tauto

end Datamgmt

/-- C8: with the external tar container satisfying its round-trip contract on
the serialized archive, parsing the blob produced by `to_blob` back with
`from_blob` succeeds and yields an archive whose `entries()` equal the original
archive's keys as a set. -/
theorem C8_tar_roundtrip (P : Datamgmt.TarPrim) (a : List (List Nat × List Nat))
    (hpar : P.par (Datamgmt.to_blob P a) = .ok a) :
    ∃ b, Datamgmt.from_blob P (Datamgmt.to_blob P a) = .ok b
      ∧ ∀ key, key ∈ Datamgmt.entriesKeys b ↔ key ∈ Datamgmt.entriesKeys a := by
  refine ⟨a.foldl (fun acc e => Datamgmt.insertEntry acc e.1 e.2) [], ?_, ?_⟩
  · unfold Datamgmt.from_blob
    rw [hpar]
  · intro key
    rw [Datamgmt.mem_keys_fold]
    simp [Datamgmt.entriesKeys]

/-- Witness for C8: the toy container round-trips a concrete two-entry archive
and the parsed archive has the same key set. -/
theorem C8_witness :
    ∃ b, Datamgmt.from_blob Datamgmt.toyTar
        (Datamgmt.to_blob Datamgmt.toyTar [([97], [1, 2]), ([98, 99], [])]) = .ok b
      ∧ ∀ key, key ∈ Datamgmt.entriesKeys b ↔
          key ∈ Datamgmt.entriesKeys [([97], [1, 2]), ([98, 99], [])] :=
  C8_tar_roundtrip Datamgmt.toyTar [([97], [1, 2]), ([98, 99], [])] (by rfl)

namespace Discord

theorem check_hierarchy_fails (p : ProviderData) (botId targetId needed : Nat)
    (g : Guild) (botMember targetMember : Member)
    (hg : p.guild = .ok g)
    (hbm : p.members botId = .ok (some botMember))
    (htm : p.members targetId = .ok (some targetMember))
    (hbid : botMember.userId = botId) (htid : targetMember.userId = targetId)
    (hpos : highestRolePos g botMember ≤ highestRolePos g targetMember) :
    ∃ e, check_permissions_and_hierarchy p botId targetId needed = .error e := by
  have hnotgt : ¬ highestRolePos g botMember > highestRolePos g targetMember :=
    Nat.not_lt.mpr hpos
  by_cases hperm : containsPerm (member_permissions g botMember) needed
  · by_cases hlt : highestRolePos g targetMember > highestRolePos g botMember
    · have hne : (targetMember.userId != botMember.userId) = true := by
        simp only [bne_iff_ne, ne_eq]
        intro heq
        have hid : botId = targetId := by rw [← hbid, ← htid, heq]
        rw [hid, htm] at hbm
        injection hbm with h1
        injection h1 with h2
        rw [h2] at hlt
        exact absurd hlt (lt_irrefl _)
      refine ⟨"User does not have a higher role than the target user", ?_⟩
      simp [check_permissions_and_hierarchy, hg, hbm, htm, hperm,
        greater_member_hierarchy, hnotgt, hlt, hne]
    · refine ⟨"User does not have a higher role than the target user", ?_⟩
      simp [check_permissions_and_hierarchy, hg, hbm, htm, hperm,
        greater_member_hierarchy, hnotgt, hlt]
  · refine ⟨"User does not have the required permissions", ?_⟩
    simp [check_permissions_and_hierarchy, hg, hbm,
      Bool.eq_false_iff.mpr hperm]

end Discord

/-- C9: a `remove_guild_member` invocation against a target member whose
highest role position is greater than or equal to the bot's fails with a
hierarchy (or earlier permission) error, and the provider's
`remove_guild_member` call for the action is never issued. -/
theorem C9_hierarchy_block (p : Discord.ProviderData) (targetId : Nat)
    (reason : String) (g : Discord.Guild) (botId : Nat)
    (botMember targetMember : Discord.Member)
    (hg : p.guild = .ok g) (hcu : p.currentUser = some botId)
    (hbm : p.members botId = .ok (some botMember))
    (htm : p.members targetId = .ok (some targetMember))
    (hbid : botMember.userId = botId) (htid : targetMember.userId = targetId)
    (hpos : Discord.highestRolePos g botMember ≤
      Discord.highestRolePos g targetMember) :
    (∃ e, (Discord.remove_guild_member p targetId reason).1 = .error e)
    ∧ Discord.ProviderCall.removeGuildMember targetId ∉
        (Discord.remove_guild_member p targetId reason).2 := by
  obtain ⟨e0, hchk⟩ := Discord.check_hierarchy_fails p botId targetId
    Discord.KICK_MEMBERS g botMember targetMember hg hbm htm hbid htid hpos
  have key : (∃ e, (Discord.remove_guild_member p targetId reason).1 = .error e)
      ∧ (Discord.remove_guild_member p targetId reason).2 =
        [Discord.ProviderCall.attemptAction "remove_guild_member"] := by
    cases hact : p.attemptAction "remove_guild_member" with
    | error e =>
        exact ⟨⟨e, by simp [Discord.remove_guild_member, hact]⟩,
          by simp [Discord.remove_guild_member, hact]⟩
    | ok u =>
        exact ⟨⟨e0, by simp [Discord.remove_guild_member, hact, hcu, hchk]⟩,
          by simp [Discord.remove_guild_member, hact, hcu, hchk]⟩
  refine ⟨key.1, ?_⟩
  rw [key.2]
  simp

/-- Witness for C9 with the S7 scenario: bot's top role at position 5, target's
at position 8; the call errors and the provider action call is absent from the
trace. -/
theorem C9_witness :
    (∃ e, (Discord.remove_guild_member Discord.s7Provider 200 "r").1 = .error e)
    ∧ Discord.ProviderCall.removeGuildMember 200 ∉
        (Discord.remove_guild_member Discord.s7Provider 200 "r").2 :=
  C9_hierarchy_block Discord.s7Provider 200 "r" Discord.s7Guild 100
    Discord.s7Bot Discord.s7Target (by rfl) (by rfl) (by rfl) (by rfl)
    (by rfl) (by rfl) (by decide)

end Apoptosis
